import Mathlib

/-!
Verification of the adaptive chunked file-transfer engine
(`FileTransfer.cpp` / `FileTransfer.h`).

The C++ code is shallowly embedded as pure Lean functions:

* the global `std::atomic<int> activeTransfers` counter is threaded
  explicitly as an `Int` parameter/field;
* the byte-duplex socket is an abstract stateful channel
  `step : σ → Nat → RecvRes × σ` (state, requested byte count);
* file contents are `List Nat` (opaque bytes);
* the local file system visible to `receiveFile` is the pair of the
  `<dest>.part` slot and the final-destination slot, each an
  `Option (List Nat)`;
* the unbounded `while` loops are written with explicit fuel and return
  `none` when the fuel runs out, so every definition is total and
  executable.
-/

namespace FileTransfer

/-- `static constexpr int MAX_RETRIES = 3` (FileTransfer.h). -/
def MAX_RETRIES : Nat := 3

/-- `static constexpr int RETRY_DELAY_MS = 1000` (FileTransfer.h). -/
def RETRY_DELAY_MS : Nat := 1000

/-- `static constexpr int BASE_TRANSFER_RATE = 20` (FileTransfer.h). -/
def BASE_TRANSFER_RATE : Nat := 20

/-- `FileTransfer::calculateChunkSize` (FileTransfer.cpp lines 26-30):
reads `activeTransfers`, clamps a non-positive value to 1, and returns
`BASE_TRANSFER_RATE / transfers` (C++ integer division).  The counter is
passed explicitly; the divisor is clamped but the quotient is not. -/
def calculateChunkSize (activeTransfers : Int) : Nat :=
  let transfers : Int := if activeTransfers ≤ 0 then 1 else activeTransfers
  ((BASE_TRANSFER_RATE : Int) / transfers).toNat

/-- The retry loop of `sendFile` (FileTransfer.cpp lines 60-69):
`while (retries < MAX_RETRIES) { if (sendChunk(...)) break; retries++;
sleep(RETRY_DELAY_MS); }`.  `f a` tells whether attempt number `a`
(0-based) of `sendChunk` succeeds; the channel decides this, the model
records it.  Returns the final value of `retries`, whether a send
succeeded, and the list of sleep durations performed (one
`RETRY_DELAY_MS` sleep after every failed attempt).  `budget` is
`MAX_RETRIES - retries`, so the loop is called with `budget = MAX_RETRIES`
and `r = 0`. -/
def retryLoop (f : Nat → Bool) : Nat → Nat → Nat × Bool × List Nat
  | 0, r => (r, false, [])
  | budget + 1, r =>
    if f r then (r, true, [])
    else
      let rest := retryLoop f budget (r + 1)
      (rest.1, rest.2.1, RETRY_DELAY_MS :: rest.2.2)

/-- One chunk's attempt phase in `sendFile`: the retry loop entered with
`retries = 0` and bound `MAX_RETRIES`. -/
def sendAttempts (f : Nat → Bool) : Nat × Bool × List Nat :=
  retryLoop f MAX_RETRIES 0

/-- The `while (!file.eof())` loop of `sendFile` (FileTransfer.cpp lines
54-84).  `outcome i a` is whether attempt `a` of `sendChunk` for chunk
number `i` succeeds.  `counter` is the value of `activeTransfers` read by
`calculateChunkSize`; `rem` the bytes of the source not yet read; `eof`
the stream's eofbit (set by `file.read` when it extracts fewer bytes than
requested); `sent` the bytes pushed to the channel so far.  The
rate-limiting sleep (lines 77-83) only consumes wall-clock time and is
elided.  Fuel models the unbounded loop; `none` means the fuel ran out
(in C++, the loop spins forever when the chunk size is 0, since a
zero-byte `read` never sets eofbit). -/
def sendLoop (outcome : Nat → Nat → Bool) (counter : Int) :
    Nat → Nat → List Nat → Bool → List Nat → Option (Bool × List Nat)
  | 0, _, _, _, _ => none
  | fuel + 1, idx, rem, eof, sent =>
    if eof then some (true, sent)
    else
      let chunk := calculateChunkSize counter
      let bytes := rem.take chunk
      match sendAttempts (outcome idx) with
      | (_, true, _) =>
          sendLoop outcome counter fuel (idx + 1) (rem.drop chunk)
            (decide (rem.length < chunk)) (sent ++ bytes)
      | (_, false, _) => some (false, sent)

/-- Result of one `sendFile` call: the returned boolean, the bytes pushed
onto the channel, and the value of `activeTransfers` after the call. -/
structure SendOut where
  ok : Bool
  sent : List Nat
  counter : Int
  deriving Repr, DecidableEq

/-- `FileTransfer::sendFile` (FileTransfer.cpp lines 38-88).
`counter0` is `activeTransfers` at entry (incremented on entry,
decremented on every return path); `fileOpens` is whether
`std::ifstream file(filename)` succeeds; `content` the bytes of the
source file. -/
def sendFile (outcome : Nat → Nat → Bool) (fuel : Nat) (counter0 : Int)
    (fileOpens : Bool) (content : List Nat) : Option SendOut :=
  let c := counter0 + 1
  if ¬ fileOpens then some ⟨false, [], c - 1⟩
  else
    match sendLoop outcome c fuel 0 content false [] with
    | none => none
    | some (ok, sent) => some ⟨ok, sent, c - 1⟩

/-- Result of one `recv` call on the channel: `err` models a negative
return value of `recv`, `bytes bs` a successful return delivering `bs`
(`bs = []` models a zero return, i.e. end of stream). -/
inductive RecvRes where
  | err : RecvRes
  | bytes : List Nat → RecvRes
  deriving Repr, DecidableEq

/-- The retry loop of `receiveFile` (FileTransfer.cpp lines 179-187):
`while (retries < MAX_RETRIES) { bytesReceived = recv(...); if
(bytesReceived >= 0) break; retries++; sleep(RETRY_DELAY_MS); }`.
The channel is an abstract state machine `step : σ → Nat → RecvRes × σ`
applied to the current state and the requested byte count; each attempt
consumes one channel step.  Returns `none` when all `MAX_RETRIES`
attempts erred (then line 189's `bytesReceived < 0 || retries ==
MAX_RETRIES` test fails the transfer) and `some bs` on the first
successful read. -/
def recvAttempts {σ : Type} (step : σ → Nat → RecvRes × σ) :
    Nat → σ → Nat → Option (List Nat) × σ
  | 0, s, _ => (none, s)
  | budget + 1, s, chunk =>
    match step s chunk with
    | (RecvRes.err, s') => recvAttempts step budget s' chunk
    | (RecvRes.bytes bs, s') => (some bs, s')

/-- The `while (true)` loop of `receiveFile` (FileTransfer.cpp lines
177-208).  `counter` is the `activeTransfers` value read by
`calculateChunkSize`; `acc` the bytes written to the `.part` file so far.
Returns `(transferSuccess, bytes written, channel state)`: exhausted
retries set `transferSuccess = false` and break (lines 189-192); a
zero-byte read sets it to `true` and breaks (lines 194-198); otherwise
the bytes are appended to the temp file and the loop continues (the
pacing sleep of lines 202-207 only consumes wall-clock time and is
elided).  Fuel models the unbounded loop. -/
def recvLoop {σ : Type} (step : σ → Nat → RecvRes × σ) (counter : Int) :
    Nat → σ → List Nat → Option (Bool × List Nat × σ)
  | 0, _, _ => none
  | fuel + 1, s, acc =>
    let chunk := calculateChunkSize counter
    match recvAttempts step MAX_RETRIES s chunk with
    | (none, s') => some (false, acc, s')
    | (some [], s') => some (true, acc, s')
    | (some (b :: bs), s') => recvLoop step counter fuel s' (acc ++ b :: bs)

/-- Destination-side environment of one `receiveFile` call, mirroring the
checks the code performs in order (FileTransfer.cpp lines 103-168):
whether `filename` is empty; whether `filename` has a non-empty parent
path; whether that parent exists; whether `access(parent, W_OK) == 0`;
whether `create_directories` succeeds without throwing; whether the
freshly created directory is writable; whether the probe
`std::ofstream testFile(tempFilename)` can create the `.part` file;
whether the real `std::ofstream tempFile(...)` open succeeds; whether
`std::filesystem::rename(temp, final)` succeeds (line 217, throwing
branch at 223-226); whether `std::filesystem::remove(temp)` succeeds
(line 232, throwing branch at 233-235). -/
structure DestInfo where
  emptyName : Bool
  hasParent : Bool
  parentExists : Bool
  parentWritable : Bool
  createDirsOk : Bool
  createdWritable : Bool
  canCreateTemp : Bool
  tempOpenOk : Bool
  renameOk : Bool
  removeOk : Bool
  deriving Repr, DecidableEq

/-- Result of one `receiveFile` call: the returned boolean, the content
of the `<dest>.part` slot and of the final-destination slot after the
call, the value of `activeTransfers` after the call, the channel state
after the call, and whether the call ever created a `.part` file. -/
structure RecvOut (σ : Type) where
  ok : Bool
  temp : Option (List Nat)
  final : Option (List Nat)
  counter : Int
  chan : σ
  tempTouched : Bool

/-- `FileTransfer::printFileContent` (FileTransfer.cpp lines 243-258):
opens the file read-only and prints each line to stdout.  It neither
modifies the file system nor produces a value, so its embedding is the
unit value; it is kept so that `receiveFile` invokes it exactly where
the code does (line 221). -/
def printFileContent (_content : Option (List Nat)) : Unit := ()

/-- `FileTransfer::receiveFile` (FileTransfer.cpp lines 97-240).
`counter0` is `activeTransfers` at entry; `d` the destination
environment; `s0` the channel state; `final0` the content of the final
destination slot before the call (the `.part` slot starts empty: the
ofstream open truncates).  Every return path decrements the counter it
incremented on entry.  `none` means the receive loop's fuel ran out. -/
def receiveFile {σ : Type} (step : σ → Nat → RecvRes × σ) (fuel : Nat)
    (counter0 : Int) (d : DestInfo) (s0 : σ) (final0 : Option (List Nat))
    (printContent : Bool) : Option (RecvOut σ) :=
  let c := counter0 + 1
  if d.emptyName then some ⟨false, none, final0, c - 1, s0, false⟩
  else if d.hasParent && d.parentExists && !d.parentWritable then
    some ⟨false, none, final0, c - 1, s0, false⟩
  else if d.hasParent && !d.parentExists && !d.createDirsOk then
    some ⟨false, none, final0, c - 1, s0, false⟩
  else if d.hasParent && !d.parentExists && !d.createdWritable then
    some ⟨false, none, final0, c - 1, s0, false⟩
  else if !d.canCreateTemp then some ⟨false, none, final0, c - 1, s0, false⟩
  else if !d.tempOpenOk then some ⟨false, none, final0, c - 1, s0, true⟩
  else
    match recvLoop step c fuel s0 [] with
    | none => none
    | some (ok, data, s') =>
      if ok then
        if d.renameOk then
          let _pr := if printContent then printFileContent (some data) else ()
          some ⟨true, none, some data, c - 1, s', true⟩
        else if d.removeOk then some ⟨false, none, final0, c - 1, s', true⟩
        else some ⟨false, some data, final0, c - 1, s', true⟩
      else if d.removeOk then some ⟨false, none, final0, c - 1, s', true⟩
      else some ⟨false, some data, final0, c - 1, s', true⟩

/-- An in-order byte channel, used to connect `sendFile` to
`receiveFile`: its state is the not-yet-delivered part of the sent byte
stream; `recv` with request `k` delivers the next `min k remaining`
bytes, and delivers zero bytes (end of stream) once the stream is
exhausted, as a half-closed TCP socket does. -/
def streamStep (rem : List Nat) (k : Nat) : RecvRes × List Nat :=
  (RecvRes.bytes (rem.take k), rem.drop k)

/-- A channel that dies mid-transfer: it holds a queue of pending
deliveries and, once the queue is drained, every further `recv` returns
an error, modelling a connection whose reads keep failing.  A delivery
longer than the requested size stays buffered, as in a socket. -/
def dataStep (s : List (List Nat)) (k : Nat) : RecvRes × List (List Nat) :=
  match s with
  | [] => (RecvRes.err, [])
  | b :: t =>
      (RecvRes.bytes (b.take k), if b.length ≤ k then t else b.drop k :: t)

/-- Registry state: how many engine calls have executed their entry
`activeTransfers++` (first component) and how many have executed their
exit `activeTransfers--` (second component). -/
def counterOf (p : Nat × Nat) : Int := (p.1 : Int) - (p.2 : Int)

/-- One atomic operation on `activeTransfers` by some interleaved engine
call: `start` is the `activeTransfers++` at function entry, `finish` the
`activeTransfers--` on a return path.  A call decrements only after its
own increment (the bracket discipline of `sendFile`/`receiveFile`), so a
`finish` step requires a call that has started and not yet finished. -/
inductive RegStep : Nat × Nat → Nat × Nat → Prop where
  | start (s f : Nat) : RegStep (s, f) (s + 1, f)
  | finish (s f : Nat) : f < s → RegStep (s, f) (s, f + 1)

/-- Registry states reachable from the initial state (no call started,
counter `0`) by interleaved bracketed calls. -/
def RegReach (p : Nat × Nat) : Prop :=
  Relation.ReflTransGen RegStep (0, 0) p

end FileTransfer

open FileTransfer

/-- Helper: once eofbit is set, the send loop exits with success. -/
theorem sendLoop_eof (outcome : Nat → Nat → Bool) (c : Int) (fuel idx : Nat)
    (rem sent : List Nat) :
    sendLoop outcome c (fuel + 1) idx rem true sent = some (true, sent) := by
  simp [sendLoop]

/-- Helper: a chunk whose first attempt succeeds ends the retry phase at
`retries = 0` with no sleep. -/
theorem sendAttempts_ideal : sendAttempts (fun _ => true) = (0, true, []) :=
  rfl

/-- Helper: if all `MAX_RETRIES` attempts of a chunk fail, the retry loop
exits with `retries = MAX_RETRIES`, failure, and one `RETRY_DELAY_MS`
sleep after each failed attempt. -/
theorem sendAttempts_all_fail (f : Nat → Bool)
    (h : ∀ a, a < MAX_RETRIES → f a = false) :
    sendAttempts f =
      (MAX_RETRIES, false, List.replicate MAX_RETRIES RETRY_DELAY_MS) := by
  have h0 := h 0 (by norm_num [MAX_RETRIES])
  have h1 := h 1 (by norm_num [MAX_RETRIES])
  have h2 := h 2 (by norm_num [MAX_RETRIES])
  simp [sendAttempts, MAX_RETRIES, retryLoop, h0, h1, h2, List.replicate]

/-- Helper: the retry phase only ever consults the outcomes of the first
`MAX_RETRIES` attempts. -/
theorem sendAttempts_congr (f g : Nat → Bool)
    (h : ∀ a, a < MAX_RETRIES → f a = g a) : sendAttempts f = sendAttempts g := by
  have h0 := h 0 (by norm_num [MAX_RETRIES])
  have h1 := h 1 (by norm_num [MAX_RETRIES])
  have h2 := h 2 (by norm_num [MAX_RETRIES])
  simp [sendAttempts, MAX_RETRIES, retryLoop, h0, h1, h2]

/-- C6: in `sendFile` each chunk is attempted at most `MAX_RETRIES = 3`
times (the retry phase depends only on the first 3 attempt outcomes),
every failed attempt is followed by one `RETRY_DELAY_MS = 1000` ms sleep,
the budget is per chunk (each chunk index enters the retry phase with a
fresh budget), and when all attempts for the chunk the loop is on fail,
the whole transfer aborts immediately with failure. -/
theorem C6_per_chunk_retry (outcome : Nat → Nat → Bool) (c : Int)
    (fuel idx : Nat) (rem sent : List Nat)
    (hfail : ∀ a, a < MAX_RETRIES → outcome idx a = false) :
    (∀ f g : Nat → Bool, (∀ a, a < MAX_RETRIES → f a = g a) →
        sendAttempts f = sendAttempts g) ∧
      sendAttempts (outcome idx) =
        (MAX_RETRIES, false, List.replicate MAX_RETRIES RETRY_DELAY_MS) ∧
      sendLoop outcome c (fuel + 1) idx rem false sent = some (false, sent) := by
  refine ⟨sendAttempts_congr, sendAttempts_all_fail _ hfail, ?_⟩
  simp [sendLoop, sendAttempts_all_fail _ hfail]

/-- Witness for C6 at a channel whose chunk 0 always fails. -/
theorem C6_per_chunk_retry_witness :
    (∀ f g : Nat → Bool, (∀ a, a < MAX_RETRIES → f a = g a) →
        sendAttempts f = sendAttempts g) ∧
      sendAttempts ((fun _ _ => false) 0) =
        (MAX_RETRIES, false, List.replicate MAX_RETRIES RETRY_DELAY_MS) ∧
      sendLoop (fun _ _ => false) 1 (4 + 1) 0 [0, 1, 2] false [] =
        some (false, []) :=
  C6_per_chunk_retry (fun _ _ => false) 1 4 0 [0, 1, 2] []
    (fun _ _ => rfl)

/-- C8: in `receiveFile`'s loop, a successful read of zero bytes is
treated as end of transmission: the loop stops at once and reports the
transfer successful, keeping the bytes accumulated so far. -/
theorem C8_zero_read_success {σ : Type} (step : σ → Nat → RecvRes × σ)
    (c : Int) (fuel : Nat) (s s' : σ) (acc : List Nat)
    (h : step s (calculateChunkSize c) = (RecvRes.bytes [], s')) :
    recvLoop step c (fuel + 1) s acc = some (true, acc, s') := by
  simp [recvLoop, MAX_RETRIES, recvAttempts, h]

/-- Witness for C8 on a channel that immediately signals end of stream. -/
theorem C8_zero_read_success_witness :
    recvLoop (fun (s : Unit) (_ : Nat) => (RecvRes.bytes [], s)) 1 (7 + 1)
        () [3, 4] = some (true, [3, 4], ()) :=
  C8_zero_read_success (fun s _ => (RecvRes.bytes [], s)) 1 7 () () [3, 4] rfl

/-- Helper: over a channel that accepts every chunk, the send loop pushes
exactly the remaining source bytes and reports success, provided the
chunk size is positive (with chunk size 0 the loop would never set
eofbit) and the fuel covers the iterations. -/
theorem sendLoop_ideal (c : Int) (hc : 1 ≤ calculateChunkSize c) :
    ∀ fuel idx rem sent, rem.length + 2 ≤ fuel →
      sendLoop (fun _ _ => true) c fuel idx rem false sent =
        some (true, sent ++ rem) := by
  intro fuel
  induction fuel with
  | zero => intro idx rem sent h; omega
  | succ f ih =>
    intro idx rem sent h
    by_cases hlt : rem.length < calculateChunkSize c
    · obtain ⟨g, rfl⟩ : ∃ g, f = g + 1 := ⟨f - 1, by omega⟩
      simp only [sendLoop, Bool.false_eq_true, if_false, sendAttempts_ideal]
      rw [decide_eq_true hlt]
      simp [List.take_of_length_le (Nat.le_of_lt hlt)]
    · have hle : calculateChunkSize c ≤ rem.length := Nat.le_of_not_lt hlt
      simp only [sendLoop, Bool.false_eq_true, if_false, sendAttempts_ideal]
      rw [decide_eq_false hlt]
      rw [ih (idx + 1) (rem.drop (calculateChunkSize c))
        (sent ++ rem.take (calculateChunkSize c))
        (by simp only [List.length_drop]; omega)]
      rw [List.append_assoc, List.take_append_drop]

/-- Helper: an in-order stream channel feeds the receive loop exactly the
remaining stream and then signals end of stream, so the loop succeeds
with the whole stream appended, provided the chunk size is positive and
the fuel covers the iterations. -/
theorem recvLoop_stream (c : Int) (hc : 1 ≤ calculateChunkSize c) :
    ∀ fuel rem acc, rem.length + 1 ≤ fuel →
      recvLoop streamStep c fuel rem acc = some (true, acc ++ rem, []) := by
  obtain ⟨k, hk⟩ : ∃ k, calculateChunkSize c = k + 1 :=
    ⟨calculateChunkSize c - 1, by omega⟩
  intro fuel
  induction fuel with
  | zero => intro rem acc h; omega
  | succ f ih =>
    intro rem acc h
    cases rem with
    | nil => simp [recvLoop, MAX_RETRIES, recvAttempts, streamStep]
    | cons x t =>
      simp only [recvLoop, MAX_RETRIES, recvAttempts, streamStep, hk,
        List.take_succ_cons, List.drop_succ_cons]
      rw [ih (t.drop k) (acc ++ x :: t.take k)
        (by simp only [List.length_drop, List.length_cons] at h ⊢; omega)]
      simp [List.append_assoc]

/-- C2: end-to-end round trip.  With each endpoint hosting the single
active transfer (counter 0 at entry, hence chunk size 20), a destination
whose directory checks, temp-file creation and rename all succeed, and a
channel that delivers the sent byte stream in order and then signals end
of stream: `sendFile` pushes exactly the source bytes `F` and succeeds,
and `receiveFile` applied to that delivered stream succeeds and installs
a final destination file byte-identical to `F`, with no `.part` file
left. -/
theorem C2_round_trip (F : List Nat) :
    sendFile (fun _ _ => true) (F.length + 2) 0 true F =
        some ⟨true, F, 0⟩ ∧
      receiveFile streamStep (F.length + 1) 0
          ⟨false, true, true, true, true, true, true, true, true, true⟩ F
          none false =
        some ⟨true, none, some F, 0, [], true⟩ := by
  have hc : 1 ≤ calculateChunkSize (0 + 1) := by decide
  constructor
  · simp only [sendFile, not_true, if_false, if_neg]
    rw [sendLoop_ideal (0 + 1) hc (F.length + 2) 0 F [] (by omega)]
    simp
  · simp only [receiveFile]
    rw [recvLoop_stream (0 + 1) hc (F.length + 1) F [] (by omega)]
    simp [printFileContent]

/-- C1: the claim says the computed chunk size equals
`max(1, BASE_RATE / currentActiveCount)` and hence is never 0.  The code
has no `max(1, ·)` floor: at an active count of 21 it computes
`20 / 21 = 0`, while the claimed formula gives 1. -/
theorem C1_chunk_floor_counterexample :
    FileTransfer.calculateChunkSize 21 = 0 ∧
      FileTransfer.calculateChunkSize 21 ≠
        max 1 (FileTransfer.BASE_TRANSFER_RATE / 21) := by
  constructor
  · rfl
  · decide

/-- C1 (amended): for every active count `c ≥ 1` the computed chunk size
is exactly `BASE_TRANSFER_RATE / c` (integer division, no `max(1, ·)`
floor), and it is `≥ 1` exactly when `c ≤ BASE_TRANSFER_RATE = 20`; for
`c > 20` it is 0. -/
theorem C1_chunk_size_amended (c : Int) (hc : 1 ≤ c) :
    FileTransfer.calculateChunkSize c =
        ((FileTransfer.BASE_TRANSFER_RATE : Int) / c).toNat ∧
      (1 ≤ FileTransfer.calculateChunkSize c ↔
        c ≤ (FileTransfer.BASE_TRANSFER_RATE : Int)) := by
  have hpos : (0 : Int) < c := hc
  have hne : ¬ c ≤ 0 := by omega
  constructor
  · simp [FileTransfer.calculateChunkSize, hne]
  · simp only [FileTransfer.calculateChunkSize, hne, if_false]
    have hdiv : (0 : Int) ≤ (FileTransfer.BASE_TRANSFER_RATE : Int) / c :=
      Int.ediv_nonneg (by norm_num) (le_of_lt hpos)
    rw [Int.le_toNat hdiv]
    rw [Int.le_ediv_iff_mul_le hpos]
    constructor
    · intro h; omega
    · intro h; omega

/-- Witness for C1's amended theorem at the concrete count 1. -/
theorem C1_chunk_size_amended_witness :
    FileTransfer.calculateChunkSize 1 =
        ((FileTransfer.BASE_TRANSFER_RATE : Int) / 1).toNat ∧
      (1 ≤ FileTransfer.calculateChunkSize 1 ↔
        (1 : Int) ≤ (FileTransfer.BASE_TRANSFER_RATE : Int)) :=
  C1_chunk_size_amended 1 (by norm_num)

set_option maxHeartbeats 1000000 in
/-- C3: `receiveFile` returns success only when the rename of
`<dest>.part` to the final path went through: on every successful return
the `.part` slot is empty and the final slot holds the received content,
and whenever the rename fails the whole call is demoted to failure. -/
theorem C3_durable_success {σ : Type} (step : σ → Nat → RecvRes × σ)
    (fuel : Nat) (c0 : Int) (d : DestInfo) (s0 : σ)
    (final0 : Option (List Nat)) (pc : Bool) (out : RecvOut σ)
    (h : receiveFile step fuel c0 d s0 final0 pc = some out) :
    (out.ok = true →
        d.renameOk = true ∧ out.temp = none ∧ ∃ bs, out.final = some bs) ∧
      (d.renameOk = false → out.ok = false) := by
  simp only [receiveFile] at h
  rcases hrec : recvLoop step (c0 + 1) fuel s0 [] with _ | ⟨ok, data, s'⟩ <;>
    rw [hrec] at h <;> repeat' split at h
  all_goals try cases h
  all_goals simp_all

/-- Witness for C3: a one-shot successful receive over an immediately
closing channel, with every filesystem operation succeeding. -/
theorem C3_durable_success_witness :
    ((true : Bool) = true →
        (true : Bool) = true ∧ (none : Option (List Nat)) = none ∧
          ∃ bs : List Nat, (some [] : Option (List Nat)) = some bs) ∧
      ((true : Bool) = false → (true : Bool) = false) :=
  C3_durable_success (fun (s : Unit) _ => (RecvRes.bytes [], s)) 1 0
    ⟨false, true, true, true, true, true, true, true, true, true⟩ () none false
    ⟨true, none, some [], 0, (), true⟩ rfl

/-- C7: when the destination filename is non-empty and its parent
directory exists but is not writable, `receiveFile` fails at the
permission gate: it returns `false`, never creates a `.part` file, and
never reads a byte from the channel (the channel state is returned
untouched).  The `canCreateTemp = false` hypothesis records the same
fact of the environment for a plain filename with no parent component,
where the code reaches the temp-file probe instead of the `access`
check. -/
theorem C7_permission_gate {σ : Type} (step : σ → Nat → RecvRes × σ)
    (fuel : Nat) (c0 : Int) (d : DestInfo) (s0 : σ)
    (final0 : Option (List Nat)) (pc : Bool)
    (hne : d.emptyName = false) (hpe : d.parentExists = true)
    (hpw : d.parentWritable = false) (hct : d.canCreateTemp = false) :
    receiveFile step fuel c0 d s0 final0 pc =
      some ⟨false, none, final0, c0, s0, false⟩ := by
  unfold receiveFile
  cases hhp : d.hasParent <;> simp [hne, hpe, hpw, hct, hhp]

/-- Witness for C7 at a concrete unwritable destination. -/
theorem C7_permission_gate_witness :
    receiveFile (fun (s : Unit) _ => (RecvRes.err, s)) 0 5
        ⟨false, true, true, false, true, true, false, true, true, true⟩ ()
        none true =
      some ⟨false, none, none, 5, (), false⟩ :=
  C7_permission_gate (fun (s : Unit) _ => (RecvRes.err, s)) 0 5
    ⟨false, true, true, false, true, true, false, true, true, true⟩ () none
    true rfl rfl rfl rfl

/-- C10: the `printContent` flag does not influence the outcome of
`receiveFile`: the returned boolean, the `.part` and final-destination
slots, the registry counter and the channel state are identical whether
or not the received content is printed (printing only writes to
stdout). -/
theorem C10_print_flag_noninterference {σ : Type}
    (step : σ → Nat → RecvRes × σ) (fuel : Nat) (c0 : Int) (d : DestInfo)
    (s0 : σ) (final0 : Option (List Nat)) :
    receiveFile step fuel c0 d s0 final0 true =
      receiveFile step fuel c0 d s0 final0 false := rfl

/-- Helper: over a channel that delivers its queued data and then keeps
erring on every read, the receive loop appends all delivered bytes to
the temp file and then fails after exhausting the retry budget, provided
the chunk size is positive and the fuel covers the iterations. -/
theorem recvLoop_err (c : Int) (hc : 1 ≤ calculateChunkSize c) :
    ∀ fuel s acc, (∀ b ∈ s, b ≠ []) →
      (s.map List.length).sum + 1 ≤ fuel →
      recvLoop dataStep c fuel s acc = some (false, acc ++ s.flatten, []) := by
  obtain ⟨k, hk⟩ : ∃ k, calculateChunkSize c = k + 1 :=
    ⟨calculateChunkSize c - 1, by omega⟩
  intro fuel
  induction fuel with
  | zero => intro s acc hne h; omega
  | succ f ih =>
    intro s acc hne h
    cases s with
    | nil => simp [recvLoop, MAX_RETRIES, recvAttempts, dataStep]
    | cons b t =>
      have hb : b ≠ [] := hne b (by simp)
      cases b with
      | nil => exact absurd rfl hb
      | cons x xs =>
        simp only [recvLoop, MAX_RETRIES, recvAttempts, dataStep, hk,
          List.take_succ_cons, List.drop_succ_cons]
        by_cases hbl : (x :: xs).length ≤ k + 1
        · rw [if_pos hbl]
          rw [ih t (acc ++ x :: List.take k xs)
            (fun y hy => hne y (List.mem_cons_of_mem _ hy))
            (by simp only [List.map_cons, List.sum_cons,
              List.length_cons] at h ⊢; omega)]
          have hxs : List.take k xs = xs :=
            List.take_of_length_le (by simp at hbl; omega)
          simp [hxs, List.append_assoc]
        · rw [if_neg hbl]
          have hlen : k < xs.length := by simp at hbl; omega
          rw [ih (List.drop k xs :: t) (acc ++ x :: List.take k xs) ?mem ?fuel]
          case mem =>
            intro y hy
            rcases List.mem_cons.mp hy with rfl | hy
            · have : 0 < (List.drop k xs).length := by
                simp only [List.length_drop]; omega
              exact List.ne_nil_of_length_pos this
            · exact hne y (List.mem_cons_of_mem _ hy)
          case fuel =>
            simp only [List.map_cons, List.sum_cons, List.length_cons,
              List.length_drop] at h ⊢
            omega
          have hsplit : List.take k xs ++ List.drop k xs = xs :=
            List.take_append_drop k xs
          simp only [List.flatten_cons, List.append_assoc, List.cons_append]
          rw [← List.append_assoc, hsplit]

set_option maxHeartbeats 1000000 in
/-- C4: a transfer that fails mid-stream.  The channel delivers some
nonempty data chunks and from then on every read errs until the retry
budget is exhausted.  With a valid destination (all directory checks and
temp-file operations succeed) and a positive chunk size: `receiveFile`
returns failure, the final destination slot is exactly what it was
before the call (nothing created or renamed there), and the `.part`
temp file has been deleted before returning. -/
theorem C4_failure_cleanup (script : List (List Nat)) (fuel : Nat)
    (c0 : Int) (d : DestInfo) (final0 : Option (List Nat)) (pc : Bool)
    (hne : ∀ b ∈ script, b ≠ [])
    (hc : 1 ≤ calculateChunkSize (c0 + 1))
    (hfuel : (script.map List.length).sum + 1 ≤ fuel)
    (h1 : d.emptyName = false)
    (h2 : d.hasParent = false ∨
      (d.parentExists = true ∧ d.parentWritable = true) ∨
      (d.parentExists = false ∧ d.createDirsOk = true ∧
        d.createdWritable = true))
    (h3 : d.canCreateTemp = true) (h4 : d.tempOpenOk = true)
    (h5 : d.removeOk = true) :
    receiveFile dataStep fuel c0 d script final0 pc =
      some ⟨false, none, final0, c0, [], true⟩ := by
  simp only [receiveFile]
  rw [recvLoop_err (c0 + 1) hc fuel script [] hne hfuel]
  rcases h2 with h2 | ⟨h2a, h2b⟩ | ⟨h2a, h2b, h2c⟩ <;>
    simp_all

/-- Witness for C4: one delivered chunk `[1]`, then the channel errs. -/
theorem C4_failure_cleanup_witness :
    receiveFile dataStep 2 0
        ⟨false, true, true, true, true, true, true, true, true, true⟩ [[1]]
        none false =
      some ⟨false, none, none, 0, [], true⟩ :=
  C4_failure_cleanup [[1]] 2 0
    ⟨false, true, true, true, true, true, true, true, true, true⟩ none false
    (by simp) (by decide) (by simp) rfl (Or.inr (Or.inl ⟨rfl, rfl⟩)) rfl rfl
    rfl

set_option maxHeartbeats 1000000 in
/-- C5: the registry bracket discipline.  Part 1: `sendFile` increments
`activeTransfers` on entry (the loop's chunk computations read
`counter0 + 1`) and decrements it on every return path, so whenever the
call returns, the counter is back to its entry value.  Part 2: the same
for `receiveFile`.  Part 3: for any interleaving of calls that each
increment before their matching decrement (`RegStep`), every reachable
registry state has at least as many starts as finishes, so the counter
value is always `≥ 0`, and it is exactly `0` once every started call has
finished. -/
theorem C5_registry_bracket :
    (∀ (outcome : Nat → Nat → Bool) (fuel : Nat) (c0 : Int) (fo : Bool)
        (content : List Nat) (out : SendOut),
        sendFile outcome fuel c0 fo content = some out → out.counter = c0) ∧
      (∀ (σ : Type) (step : σ → Nat → RecvRes × σ) (fuel : Nat) (c0 : Int)
        (d : DestInfo) (s0 : σ) (f0 : Option (List Nat)) (pc : Bool)
        (out : RecvOut σ),
        receiveFile step fuel c0 d s0 f0 pc = some out →
          out.counter = c0) ∧
      (∀ p : Nat × Nat, RegReach p →
        p.2 ≤ p.1 ∧ 0 ≤ counterOf p ∧ (p.1 = p.2 → counterOf p = 0)) := by
  refine ⟨?_, ?_, ?_⟩
  · intro outcome fuel c0 fo content out h
    by_cases hfo : fo
    · simp only [sendFile, hfo, not_true, if_false] at h
      rcases hs : sendLoop outcome (c0 + 1) fuel 0 content false [] with
        _ | ⟨ok, sent⟩ <;> rw [hs] at h
      · cases h
      · cases h
        simp
    · simp only [sendFile, hfo, not_false_iff, if_true] at h
      cases h
      simp
  · intro σ step fuel c0 d s0 f0 pc out h
    simp only [receiveFile] at h
    rcases hrec : recvLoop step (c0 + 1) fuel s0 [] with _ | ⟨ok, data, s'⟩ <;>
      rw [hrec] at h <;> repeat' split at h
    all_goals try cases h
    all_goals simp
  · intro p hp
    induction hp with
    | refl => simp [counterOf]
    | tail _ hstep ih =>
      obtain ⟨ih1, -, -⟩ := ih
      cases hstep with
      | start s f =>
        refine ⟨by omega, ?_, ?_⟩ <;> simp only [counterOf] <;> intros <;> omega
      | finish s f hlt =>
        refine ⟨by omega, ?_, ?_⟩ <;> simp only [counterOf] <;> intros <;> omega

/-- Witness for C5: a concrete `sendFile` return restores the entry
counter 0, and the registry state after one started call has counter
`≥ 0`. -/
theorem C5_registry_bracket_witness :
    (SendOut.counter ⟨false, [], 0⟩ : Int) = 0 ∧ 0 ≤ counterOf (1, 0) := by
  constructor
  · exact C5_registry_bracket.1 (fun _ _ => true) 0 0 false [] ⟨false, [], 0⟩
      (by decide)
  · exact (C5_registry_bracket.2.2 (1, 0)
      (Relation.ReflTransGen.single (RegStep.start 0 0))).2.1
